import Mathlib

/-!
Shallow embedding of the `impl_new_derive` procedural macro (src/src/lib.rs).

The crate exposes one derive entry point, `derive_impl_new`, plus one helper,
`extract_default_value`.  Given a parsed `DeriveInput` the macro

  * rejects (panics on) anything that is not a struct with named fields;
  * splits the fields into public fields (`Visibility::Public`) and all others;
  * makes the public fields the parameters of a generated `new` function,
    in declaration order, with their declared types;
  * initializes every non-public field either with the expression of its first
    successfully parsing `#[default(...)]` attribute or with
    `Default::default()`;
  * emits `impl <generics> Name <ty_generics> <where> { pub fn new(...) -> Self
    { Self { <pub names>, <non-pub inits> } } }`.

Modelling decisions, each tied to the source:

  * `syn::Expr` values are kept as the verbatim token text of the expression
    (a `String`); the macro never inspects an expression, it only splices it
    back (`quote! { #expr }`).
  * `attr.parse_args::<Expr>()` is an external `syn` parser; its outcome is
    recorded on the attribute as `parsedArg : Option Expr` (`some e` when the
    argument tokens parse to the expression `e`, `none` when parsing fails).
  * Field types and generic bounds are likewise kept as verbatim token text.
  * The `quote!` template separates the public-field names and the non-public
    initializers with a literal comma (`#(#pub_field_names),*,`), so the body
    of the generated `Self { ... }` expression is modelled at the token level
    (`List Tok`): this is exactly the token sequence the macro splices between
    the braces.  The `impl` header and the `new` signature contain no such
    literal separators, so they are modelled structurally.
-/

namespace ImplNew

/-- Verbatim token text of a host-language expression (`syn::Expr`). -/
abbrev Expr := String

/-- One attached attribute (`syn::Attribute`): its path and the outcome of
`parse_args::<Expr>()` on its argument tokens (`none` = parse failure). -/
structure Attr where
  path : String
  parsedArg : Option Expr
deriving DecidableEq

/-- Field visibility (`syn::Visibility`): `pub`, `pub(crate)`-style restricted,
or inherited (private). -/
inductive Visibility
  | publicVis
  | restricted (scope : String)
  | inherited
deriving DecidableEq

/-- `matches!(f.vis, Visibility::Public(_))` from lib.rs lines 107 and 111. -/
def Visibility.isPublic : Visibility → Bool
  | .publicVis => true
  | _ => false

/-- One named struct field (`syn::Field`): identifier, declared type (verbatim
token text), visibility, attached attributes. -/
structure Field where
  ident : String
  ty : String
  vis : Visibility
  attrs : List Attr
deriving DecidableEq

/-- One generic parameter with its verbatim bound tokens. -/
structure GenericParam where
  name : String
  bounds : String
deriving DecidableEq

/-- `syn::Generics`: the parameter list and the optional where-clause
(verbatim token text). -/
structure Generics where
  params : List GenericParam
  whereClause : Option String
deriving DecidableEq

/-- `generics.split_for_impl()` (lib.rs line 91): the impl-side generics (full
parameters with bounds), the type-side generics (parameter names only), and
the where-clause. -/
def Generics.splitForImpl (g : Generics) :
    List GenericParam × List String × Option String :=
  (g.params, g.params.map (fun p => p.name), g.whereClause)

/-- The field layout of a struct (`syn::Fields`). -/
inductive Fields
  | named (fields : List Field)
  | unnamed (tys : List String)
  | unit
deriving DecidableEq

/-- The data shape of the derive input (`syn::Data`). -/
inductive Data
  | structData (fields : Fields)
  | enumData
  | unionData
deriving DecidableEq

/-- `syn::DeriveInput`: name, generics and data shape of the annotated
declaration. -/
structure DeriveInput where
  ident : String
  generics : Generics
  data : Data
deriving DecidableEq

/-- Tokens that can appear between the braces of the generated
`Self { ... }` expression. `defaultCallTok` stands for the token run
`Default::default()`, `exprTok e` for the verbatim tokens of expression `e`. -/
inductive Tok
  | ident (s : String)
  | comma
  | colon
  | defaultCallTok
  | exprTok (e : Expr)
deriving DecidableEq

/-- `extract_default_value` (lib.rs lines 150-160): walk the attributes in
order; for each with path `default`, try to parse its argument as an
expression; return the first success.  A `default` attribute whose argument
fails to parse is skipped and the walk continues. -/
def extract_default_value : List Attr → Option Expr
  | [] => none
  | attr :: rest =>
      if attr.path = "default" then
        match attr.parsedArg with
        | some e => some e
        | none => extract_default_value rest
      else
        extract_default_value rest

/-- The initializer tokens generated for one non-public field (lib.rs lines
119-128): `name : expr` when `#[default(expr)]` is extracted, otherwise
`name : Default::default()`. -/
def nonPubInitToks (f : Field) : List Tok :=
  match extract_default_value f.attrs with
  | some default_expr => [Tok.ident f.ident, Tok.colon, Tok.exprTok default_expr]
  | none => [Tok.ident f.ident, Tok.colon, Tok.defaultCallTok]

/-- `quote!`-style separated repetition `#(#x),*`: splice the token runs with
a single comma between consecutive runs and no trailing comma. -/
def sepByComma : List (List Tok) → List Tok
  | [] => []
  | [x] => x
  | x :: xs => x ++ Tok.comma :: sepByComma xs

/-- The generated `impl` block: impl-side generics, self type name, type-side
generics, where-clause, the `new` parameters (name/type pairs, from the
lockstep repetition `#(#pub_field_names: #pub_field_types),*`), and the raw
token sequence spliced between the braces of `Self { ... }`. -/
structure ImplBlock where
  implGenerics : List GenericParam
  selfTy : String
  tyGenerics : List String
  whereClause : Option String
  newParams : List (String × String)
  bodyFieldToks : List Tok
deriving DecidableEq

/-- `derive_impl_new` (lib.rs lines 86-147).  Panics are modelled as
`Except.error` carrying the panic message.  The body tokens follow the
template `#(#pub_field_names),*, #(#non_pub_field_initializations),*`:
note the literal comma between the two repetitions. -/
def derive_impl_new (input : DeriveInput) : Except String ImplBlock :=
  let name := input.ident
  let generics := input.generics
  let igtw := generics.splitForImpl
  match input.data with
  | Data.structData (Fields.named named) =>
      let fields := named
      let pub_fields := fields.filter fun f => f.vis.isPublic
      let non_pub_fields := fields.filter fun f => !f.vis.isPublic
      let pub_field_names := pub_fields.map fun f => f.ident
      let pub_field_types := pub_fields.map fun f => f.ty
      let non_pub_field_inits := non_pub_fields.map nonPubInitToks
      Except.ok
        { implGenerics := igtw.1
          selfTy := name
          tyGenerics := igtw.2.1
          whereClause := igtw.2.2
          newParams := pub_field_names.zip pub_field_types
          bodyFieldToks :=
            sepByComma (pub_field_names.map fun n => [Tok.ident n])
              ++ Tok.comma :: sepByComma non_pub_field_inits }
  | Data.structData _ =>
      Except.error "`ImplNew` macro can only be used on structs with named fields"
  | _ =>
      Except.error "`ImplNew` macro can only be used on structs"

/-!
Specification-side view of the generated body.

The macro's output is a token stream that the host compiler re-parses; the
following definitions give the grammar of a Rust struct-expression field list,
restricted to the tokens the macro can emit, so that well-formedness of the
generated body ("it parses as a field list") and its parsed structure
("which field gets which initializer") can be stated.
-/

/-- A parsed field initializer: shorthand `name` (binds the identically-named
`new` parameter), `name : e` for an explicit expression, or
`name : Default::default()`. -/
inductive InitExpr
  | param
  | expr (e : Expr)
  | defaultCall
deriving DecidableEq

/-- One entry of a parsed struct-expression field list. -/
structure FieldInit where
  name : String
  value : InitExpr
deriving DecidableEq

/-- Parse a token sequence as a Rust struct-expression field list
(comma-separated initializers, optional trailing comma, empty list allowed).
Returns `none` when the tokens are not a well-formed field list. -/
def parseInits : List Tok → Option (List FieldInit)
  | [] => some []
  | [Tok.ident n] => some [⟨n, InitExpr.param⟩]
  | Tok.ident n :: Tok.comma :: rest =>
      (parseInits rest).map (⟨n, InitExpr.param⟩ :: ·)
  | [Tok.ident n, Tok.colon, Tok.exprTok e] => some [⟨n, InitExpr.expr e⟩]
  | Tok.ident n :: Tok.colon :: Tok.exprTok e :: Tok.comma :: rest =>
      (parseInits rest).map (⟨n, InitExpr.expr e⟩ :: ·)
  | [Tok.ident n, Tok.colon, Tok.defaultCallTok] => some [⟨n, InitExpr.defaultCall⟩]
  | Tok.ident n :: Tok.colon :: Tok.defaultCallTok :: Tok.comma :: rest =>
      (parseInits rest).map (⟨n, InitExpr.defaultCall⟩ :: ·)
  | _ => none

/-- The initializer value the default-resolution path assigns to a non-public
field: its extracted `#[default(...)]` expression, else `Default::default()`. -/
def initValOf (f : Field) : InitExpr :=
  match extract_default_value f.attrs with
  | some e => InitExpr.expr e
  | none => InitExpr.defaultCall

/-- The parsed-form initializer entry of a non-public field. -/
def structInit (f : Field) : FieldInit := ⟨f.ident, initValOf f⟩

/-- The body tokens of a derive result (`[]` for a rejected input). -/
def bodyToksOf (r : Except String ImplBlock) : List Tok :=
  match r with
  | Except.ok o => o.bodyFieldToks
  | Except.error _ => []

/-- The parsed field-initializer list of a derive result (`none` for a
rejected input or a body that does not parse as a field list). -/
def bodyInitsOf (r : Except String ImplBlock) : Option (List FieldInit) :=
  match r with
  | Except.ok o => parseInits o.bodyFieldToks
  | Except.error _ => none

/-- Whether the input's data shape is a struct with named fields, the only
shape the macro accepts. -/
def isNamedFieldStruct : Data → Bool
  | Data.structData (Fields.named _) => true
  | _ => false

/-- The panic message the macro emits for each rejected data shape (the value
on the accepted shape is irrelevant and never used). -/
def shapeDiagnostic : Data → String
  | Data.structData (Fields.named _) => ""
  | Data.structData _ =>
      "`ImplNew` macro can only be used on structs with named fields"
  | _ => "`ImplNew` macro can only be used on structs"

/-- Replace a restricted visibility (`pub(crate)`, `pub(super)`, ...) by the
inherited (private) one; public and inherited visibilities are unchanged. -/
def demoteRestricted : Visibility → Visibility
  | Visibility.restricted _ => Visibility.inherited
  | v => v

/-- Apply `demoteRestricted` to one field's visibility. -/
def demoteField (f : Field) : Field := { f with vis := demoteRestricted f.vis }

/-- Apply `demoteRestricted` to every field of the input declaration. -/
def demoteInput (input : DeriveInput) : DeriveInput :=
  { input with
    data :=
      match input.data with
      | Data.structData (Fields.named fs) =>
          Data.structData (Fields.named (fs.map demoteField))
      | d => d }

/-- The Accepted/Rejected terminal state of one invocation: `true` exactly
when a descriptor is produced. -/
def isAccepted (r : Except String ImplBlock) : Bool :=
  match r with
  | Except.ok _ => true
  | Except.error _ => false

/-- The `new` parameter list of a derive result (`[]` for a rejected input). -/
def newParamsOf (r : Except String ImplBlock) : List (String × String) :=
  match r with
  | Except.ok o => o.newParams
  | Except.error _ => []

/-- The impl-side generics of a derive result (`[]` for a rejected input). -/
def implGenericsOf (r : Except String ImplBlock) : List GenericParam :=
  match r with
  | Except.ok o => o.implGenerics
  | Except.error _ => []

/-- The type-side generics of a derive result (`[]` for a rejected input). -/
def tyGenericsOf (r : Except String ImplBlock) : List String :=
  match r with
  | Except.ok o => o.tyGenerics
  | Except.error _ => []

/-- The where-clause of a derive result (`none` for a rejected input). -/
def whereClauseOf (r : Except String ImplBlock) : Option String :=
  match r with
  | Except.ok o => o.whereClause
  | Except.error _ => none

/-- The self-type name of a derive result (`""` for a rejected input). -/
def selfTyOf (r : Except String ImplBlock) : String :=
  match r with
  | Except.ok o => o.selfTy
  | Except.error _ => ""

/-! ### Concrete inputs used to exercise the theorems -/

/-- Empty generics, for non-generic example structs. -/
def noGenerics : Generics := ⟨[], none⟩

/-- A private field carrying `#[default("fallback")]` with a parseable
argument (the spec's scenario B). -/
def fieldC2 : Field :=
  ⟨"b", "String", Visibility.inherited, [⟨"default", some "\"fallback\""⟩]⟩

/-- Scenario B field list: `pub a: i64` plus `fieldC2`. -/
def fieldsC2 : List Field := [⟨"a", "i64", Visibility.publicVis, []⟩, fieldC2]

/-- Scenario B input declaration. -/
def inC2w : DeriveInput := ⟨"C2S", noGenerics, Data.structData (Fields.named fieldsC2)⟩

/-- A private field with no attributes at all (the spec's scenario A). -/
def fieldC3 : Field := ⟨"b", "String", Visibility.inherited, []⟩

/-- Scenario A field list: `pub a: i64` plus `fieldC3`. -/
def fieldsC3 : List Field := [⟨"a", "i64", Visibility.publicVis, []⟩, fieldC3]

/-- Scenario A input declaration. -/
def inC3w : DeriveInput := ⟨"C3S", noGenerics, Data.structData (Fields.named fieldsC3)⟩

/-- Struct whose private field `x` carries two `#[default(...)]` attributes:
the first with an unparseable argument, the second with argument `42`. -/
def inC4x : DeriveInput :=
  ⟨"C4S", noGenerics, Data.structData (Fields.named
    [⟨"a", "u32", Visibility.publicVis, []⟩,
     ⟨"x", "u32", Visibility.inherited,
       [⟨"default", none⟩, ⟨"default", some "42"⟩]⟩])⟩

/-- Struct with zero public fields and one private field. -/
def inC5x : DeriveInput :=
  ⟨"Hidden", noGenerics, Data.structData (Fields.named
    [⟨"secret", "String", Visibility.inherited, []⟩])⟩

/-- Struct whose private field `y` carries a failing `#[default]` followed by
a parseable `#[default(7)]`. -/
def inC6x : DeriveInput :=
  ⟨"C6S", noGenerics, Data.structData (Fields.named
    [⟨"s", "u8", Visibility.publicVis, []⟩,
     ⟨"y", "u16", Visibility.inherited,
       [⟨"default", none⟩, ⟨"default", some "7"⟩]⟩])⟩

/-- A private field whose only `#[default(...)]` attribute has an argument
that fails to parse as an expression. -/
def fieldC6 : Field := ⟨"q", "Vec<u8>", Visibility.inherited, [⟨"default", none⟩]⟩

/-- Field list with one public field and `fieldC6`. -/
def fieldsC6 : List Field := [⟨"p", "u8", Visibility.publicVis, []⟩, fieldC6]

/-- Input declaration around `fieldsC6`. -/
def inC6w : DeriveInput := ⟨"C6W", noGenerics, Data.structData (Fields.named fieldsC6)⟩

/-- An enumeration input (not a struct). -/
def inC7w : DeriveInput := ⟨"C7E", noGenerics, Data.enumData⟩

/-- Struct with zero public fields and two private fields. -/
def inC8x : DeriveInput :=
  ⟨"C8S", noGenerics, Data.structData (Fields.named
    [⟨"hidden", "u32", Visibility.inherited, []⟩,
     ⟨"extra", "u8", Visibility.inherited, []⟩])⟩

/-- Field list with one public field and one private field with a parseable
`#[default(3)]`. -/
def fieldsC8 : List Field :=
  [⟨"a", "u8", Visibility.publicVis, []⟩,
   ⟨"b", "u16", Visibility.inherited, [⟨"default", some "3"⟩]⟩]

/-- Input declaration around `fieldsC8`. -/
def inC8w : DeriveInput := ⟨"C8W", noGenerics, Data.structData (Fields.named fieldsC8)⟩

/-- Generic parameter list `<T: Clone>` with a where-clause, for the generic
fidelity check. -/
def genC9 : Generics := ⟨[⟨"T", "Clone"⟩], some "T: Send"⟩

/-- Generic struct `C9G<T: Clone> where T: Send { pub value: T, count: usize }`. -/
def inC9w : DeriveInput :=
  ⟨"C9G", genC9, Data.structData (Fields.named
    [⟨"value", "T", Visibility.publicVis, []⟩,
     ⟨"count", "usize", Visibility.inherited, []⟩])⟩

/-- A `pub(crate)` field. -/
def fieldC10 : Field := ⟨"c", "u32", Visibility.restricted "crate", []⟩

/-- Field list with one fully public field and the `pub(crate)` field. -/
def fieldsC10 : List Field := [⟨"a", "u8", Visibility.publicVis, []⟩, fieldC10]

/-- Input declaration around `fieldsC10`. -/
def inC10w : DeriveInput := ⟨"C10S", noGenerics, Data.structData (Fields.named fieldsC10)⟩

/-! ### Helper lemmas -/

theorem sepByComma_cons₂ (a b : List Tok) (l : List (List Tok)) :
    sepByComma (a :: b :: l) = a ++ Tok.comma :: sepByComma (b :: l) := rfl

theorem extract_append_not_default (pre rest : List Attr)
    (h : ∀ b ∈ pre, b.path ≠ "default") :
    extract_default_value (pre ++ rest) = extract_default_value rest := by
  induction pre with
  | nil => rfl
  | cons b pre ih =>
      have hb : b.path ≠ "default" := h b (List.mem_cons_self b pre)
      simp only [List.cons_append, extract_default_value, if_neg hb]
      exact ih fun c hc => h c (List.mem_cons_of_mem b hc)

theorem extract_none_of_all_fail (attrs : List Attr)
    (h : ∀ b ∈ attrs, b.path = "default" → b.parsedArg = none) :
    extract_default_value attrs = none := by
  induction attrs with
  | nil => rfl
  | cons b rest ih =>
      have hrest : extract_default_value rest = none :=
        ih fun c hc => h c (List.mem_cons_of_mem b hc)
      by_cases hb : b.path = "default"
      · have hnone := h b (List.mem_cons_self b rest) hb
        simp [extract_default_value, hb, hnone, hrest]
      · simp [extract_default_value, hb, hrest]

theorem extract_eq_findSome (attrs : List Attr) :
    extract_default_value attrs =
      attrs.findSome? fun a => if a.path = "default" then a.parsedArg else none := by
  induction attrs with
  | nil => rfl
  | cons b rest ih =>
      by_cases hb : b.path = "default" <;>
        cases harg : b.parsedArg <;>
          simp [extract_default_value, List.findSome?_cons, hb, harg, ih]

theorem mem_sepByComma_infix {α : Type} (g : α → List Tok) (xs : List α) (x : α)
    (h : x ∈ xs) : g x <:+: sepByComma (xs.map g) := by
  induction xs with
  | nil => cases h
  | cons y ys ih =>
      cases ys with
      | nil =>
          have hx : x = y := by simpa using h
          subst hx
          exact List.infix_refl (g x)
      | cons z zs =>
          rw [show sepByComma ((y :: z :: zs).map g)
              = g y ++ Tok.comma :: sepByComma ((z :: zs).map g) from rfl]
          rcases List.mem_cons.mp h with rfl | hmem
          · exact (List.prefix_append (g x) (Tok.comma :: sepByComma ((z :: zs).map g))).isInfix
          · exact (List.infix_cons (ih hmem)).trans
              (List.suffix_append (g y) (Tok.comma :: sepByComma ((z :: zs).map g))).isInfix

theorem parseInits_param_cons (n : String) (rest : List Tok) :
    parseInits (Tok.ident n :: Tok.comma :: rest)
      = (parseInits rest).map ((⟨n, InitExpr.param⟩ : FieldInit) :: ·) := rfl

theorem parseInits_expr_cons (n : String) (e : Expr) (rest : List Tok) :
    parseInits (Tok.ident n :: Tok.colon :: Tok.exprTok e :: Tok.comma :: rest)
      = (parseInits rest).map ((⟨n, InitExpr.expr e⟩ : FieldInit) :: ·) := rfl

theorem parseInits_defaultCall_cons (n : String) (rest : List Tok) :
    parseInits (Tok.ident n :: Tok.colon :: Tok.defaultCallTok :: Tok.comma :: rest)
      = (parseInits rest).map ((⟨n, InitExpr.defaultCall⟩ : FieldInit) :: ·) := rfl

theorem parse_sep_nonpub (nps : List Field) :
    parseInits (sepByComma (nps.map nonPubInitToks)) = some (nps.map structInit) := by
  induction nps with
  | nil => rfl
  | cons f rest ih =>
      cases rest with
      | nil =>
          cases hx : extract_default_value f.attrs <;>
            simp [sepByComma, nonPubInitToks, hx, parseInits, structInit, initValOf]
      | cons g rest2 =>
          rw [show sepByComma ((f :: g :: rest2).map nonPubInitToks)
              = nonPubInitToks f
                ++ Tok.comma :: sepByComma ((g :: rest2).map nonPubInitToks) from rfl]
          cases hx : extract_default_value f.attrs with
          | some e =>
              rw [show nonPubInitToks f = [Tok.ident f.ident, Tok.colon, Tok.exprTok e] from
                  by simp [nonPubInitToks, hx]]
              simp only [List.cons_append, List.nil_append]
              rw [parseInits_expr_cons, ih]
              simp [structInit, initValOf, hx]
          | none =>
              rw [show nonPubInitToks f = [Tok.ident f.ident, Tok.colon, Tok.defaultCallTok] from
                  by simp [nonPubInitToks, hx]]
              simp only [List.cons_append, List.nil_append]
              rw [parseInits_defaultCall_cons, ih]
              simp [structInit, initValOf, hx]

theorem parse_pub_prefix (pns : List String) (hne : pns ≠ []) (S : List Tok)
    (l : List FieldInit) (hS : parseInits S = some l) :
    parseInits (sepByComma (pns.map fun n => [Tok.ident n]) ++ Tok.comma :: S)
      = some (pns.map (fun n => (⟨n, InitExpr.param⟩ : FieldInit)) ++ l) := by
  induction pns with
  | nil => exact absurd rfl hne
  | cons n rest ih =>
      cases rest with
      | nil => simp [sepByComma, parseInits, hS]
      | cons m rest2 =>
          rw [show sepByComma ((n :: m :: rest2).map fun n => [Tok.ident n])
              = [Tok.ident n]
                ++ Tok.comma :: sepByComma ((m :: rest2).map fun n => [Tok.ident n]) from rfl]
          have hrec := ih (by simp)
          simp only [List.cons_append, List.nil_append, List.append_assoc]
          rw [parseInits_param_cons, hrec]
          simp

theorem nonpub_init_infix (nm : String) (gen : Generics) (fields : List Field)
    (f : Field) (hf : f ∈ fields) (hvis : f.vis.isPublic = false) :
    nonPubInitToks f
      <:+: bodyToksOf (derive_impl_new ⟨nm, gen, Data.structData (Fields.named fields)⟩) := by
  have hmem : f ∈ fields.filter (fun g => !g.vis.isPublic) :=
    List.mem_filter.mpr ⟨hf, by simp [hvis]⟩
  have h1 := mem_sepByComma_infix nonPubInitToks (fields.filter fun g => !g.vis.isPublic) f hmem
  have hbody : bodyToksOf (derive_impl_new ⟨nm, gen, Data.structData (Fields.named fields)⟩)
      = sepByComma (((fields.filter fun g => g.vis.isPublic).map fun g => g.ident).map
            fun n => [Tok.ident n])
        ++ Tok.comma
          :: sepByComma ((fields.filter fun g => !g.vis.isPublic).map nonPubInitToks) := rfl
  rw [hbody]
  exact (List.infix_cons h1).trans (List.suffix_append _ _).isInfix

@[simp] theorem demoteField_ident (f : Field) : (demoteField f).ident = f.ident := rfl

@[simp] theorem demoteField_ty (f : Field) : (demoteField f).ty = f.ty := rfl

@[simp] theorem demoteField_attrs (f : Field) : (demoteField f).attrs = f.attrs := rfl

@[simp] theorem isPublic_demoteField (f : Field) :
    (demoteField f).vis.isPublic = f.vis.isPublic := by
  show (demoteRestricted f.vis).isPublic = f.vis.isPublic
  cases h : f.vis <;> simp [demoteRestricted, Visibility.isPublic]

@[simp] theorem nonPubInitToks_demoteField (f : Field) :
    nonPubInitToks (demoteField f) = nonPubInitToks f := rfl

theorem derive_demote (input : DeriveInput) :
    derive_impl_new (demoteInput input) = derive_impl_new input := by
  obtain ⟨nm, gen, dt⟩ := input
  cases dt with
  | structData fs =>
      cases fs with
      | named fields =>
          show derive_impl_new ⟨nm, gen, Data.structData (Fields.named (fields.map demoteField))⟩
              = derive_impl_new ⟨nm, gen, Data.structData (Fields.named fields)⟩
          have hfp : (fields.map demoteField).filter (fun f => f.vis.isPublic)
              = (fields.filter fun f => f.vis.isPublic).map demoteField := by
            rw [List.filter_map]
            exact congrArg _ (List.filter_congr fun a _ => by simp [Function.comp])
          have hfn : (fields.map demoteField).filter (fun f => !f.vis.isPublic)
              = (fields.filter fun f => !f.vis.isPublic).map demoteField := by
            rw [List.filter_map]
            exact congrArg _ (List.filter_congr fun a _ => by simp [Function.comp])
          have h1 : ((fun f : Field => f.ident) ∘ demoteField) = fun f : Field => f.ident :=
            funext fun f => rfl
          have h2 : ((fun f : Field => f.ty) ∘ demoteField) = fun f : Field => f.ty :=
            funext fun f => rfl
          have h3 : (nonPubInitToks ∘ demoteField) = nonPubInitToks :=
            funext fun f => rfl
          simp only [derive_impl_new, hfp, hfn, List.map_map, h1, h2, h3]
      | unnamed tys => rfl
      | unit => rfl
  | enumData => rfl
  | unionData => rfl

/-! ### Claim theorems -/

/-- Claim C1: for every named-field struct declaration, the synthesized
constructor's parameter list consists of exactly the public fields, in
original declaration order, each parameter using the field's exact declared
type; in particular the parameter count equals the count of public fields. -/
theorem c1_params_exactly_public_fields (nm : String) (gen : Generics)
    (fields : List Field) :
    newParamsOf (derive_impl_new ⟨nm, gen, Data.structData (Fields.named fields)⟩)
      = (fields.filter fun f => f.vis.isPublic).map (fun f => (f.ident, f.ty)) ∧
    (newParamsOf (derive_impl_new ⟨nm, gen, Data.structData (Fields.named fields)⟩)).length
      = (fields.filter fun f => f.vis.isPublic).length := by
  have h : newParamsOf (derive_impl_new ⟨nm, gen, Data.structData (Fields.named fields)⟩)
      = ((fields.filter fun f => f.vis.isPublic).map fun f => f.ident).zip
          ((fields.filter fun f => f.vis.isPublic).map fun f => f.ty) := rfl
  rw [h, List.zip_map']
  exact ⟨rfl, List.length_map _ _⟩

/-- Claim C2: a non-public field whose (first) default-override annotation
carries a syntactically valid argument expression `E` gets exactly `E`,
verbatim, as its synthesized initializer. -/
theorem c2_valid_default_used_verbatim (nm : String) (gen : Generics)
    (fields : List Field) (f : Field) (pre : List Attr) (a : Attr)
    (post : List Attr) (E : Expr)
    (hf : f ∈ fields) (hvis : f.vis.isPublic = false)
    (hattrs : f.attrs = pre ++ a :: post)
    (hfirst : ∀ b ∈ pre, b.path ≠ "default")
    (hpath : a.path = "default") (harg : a.parsedArg = some E) :
    extract_default_value f.attrs = some E ∧
    [Tok.ident f.ident, Tok.colon, Tok.exprTok E]
      <:+: bodyToksOf (derive_impl_new ⟨nm, gen, Data.structData (Fields.named fields)⟩) := by
  have hex : extract_default_value f.attrs = some E := by
    rw [hattrs, extract_append_not_default pre (a :: post) hfirst]
    simp [extract_default_value, hpath, harg]
  refine ⟨hex, ?_⟩
  have hinf := nonpub_init_infix nm gen fields f hf hvis
  rwa [show nonPubInitToks f = [Tok.ident f.ident, Tok.colon, Tok.exprTok E] from
    by simp [nonPubInitToks, hex]] at hinf

/-- Witness for C2: scenario B, `pub a: i64` and private `b` carrying
`#[default("fallback")]`; the initializer for `b` is the verbatim argument. -/
theorem c2_witness :
    extract_default_value fieldC2.attrs = some "\"fallback\"" ∧
    [Tok.ident "b", Tok.colon, Tok.exprTok "\"fallback\""]
      <:+: bodyToksOf (derive_impl_new inC2w) :=
  c2_valid_default_used_verbatim "C2S" noGenerics fieldsC2 fieldC2
    [] ⟨"default", some "\"fallback\""⟩ [] "\"fallback\""
    (by decide) rfl rfl (by simp) rfl rfl

/-- Claim C3: a non-public field carrying no default-override annotation gets
the generic-default invocation `Default::default()` as its synthesized
initializer. -/
theorem c3_no_default_uses_generic_default (nm : String) (gen : Generics)
    (fields : List Field) (f : Field)
    (hf : f ∈ fields) (hvis : f.vis.isPublic = false)
    (hnone : ∀ b ∈ f.attrs, b.path ≠ "default") :
    extract_default_value f.attrs = none ∧
    [Tok.ident f.ident, Tok.colon, Tok.defaultCallTok]
      <:+: bodyToksOf (derive_impl_new ⟨nm, gen, Data.structData (Fields.named fields)⟩) := by
  have hex : extract_default_value f.attrs = none :=
    extract_none_of_all_fail f.attrs fun b hb hbp => absurd hbp (hnone b hb)
  refine ⟨hex, ?_⟩
  have hinf := nonpub_init_infix nm gen fields f hf hvis
  rwa [show nonPubInitToks f = [Tok.ident f.ident, Tok.colon, Tok.defaultCallTok] from
    by simp [nonPubInitToks, hex]] at hinf

/-- Witness for C3: scenario A, `pub a: i64` and private unannotated `b`;
the initializer for `b` is `Default::default()`. -/
theorem c3_witness :
    extract_default_value fieldC3.attrs = none ∧
    [Tok.ident "b", Tok.colon, Tok.defaultCallTok]
      <:+: bodyToksOf (derive_impl_new inC3w) :=
  c3_no_default_uses_generic_default "C3S" noGenerics fieldsC3 fieldC3
    (by decide) rfl (by simp [fieldC3])

/-- Counterexample to C4: the private field `x` of `inC4x` carries two
default-override annotations, the first with an unparseable argument and the
second with argument `42`; the claim predicts that only the first occurrence
is honored, hence the generic-default fallback, but the code synthesizes the
second occurrence's argument `42`. -/
theorem c4_counterexample :
    bodyInitsOf (derive_impl_new inC4x)
      = some [⟨"a", InitExpr.param⟩, ⟨"x", InitExpr.expr "42"⟩] ∧
    ¬ bodyInitsOf (derive_impl_new inC4x)
      = some [⟨"a", InitExpr.param⟩, ⟨"x", InitExpr.defaultCall⟩] := by
  decide

/-- Claim C4, amended: the synthesized initializer of a non-public field is
determined by the first default-override annotation whose argument
successfully parses as an expression (used verbatim); if no occurrence
parses, the generic-default fallback is used; occurrences after the first
successfully parsing one are ignored. -/
theorem c4_amended_first_parsing_occurrence_wins (f : Field) :
    nonPubInitToks f =
      match f.attrs.findSome? (fun a => if a.path = "default" then a.parsedArg else none) with
      | some e => [Tok.ident f.ident, Tok.colon, Tok.exprTok e]
      | none => [Tok.ident f.ident, Tok.colon, Tok.defaultCallTok] := by
  rw [nonPubInitToks, extract_eq_findSome]

/-- Code bug exhibited for C5: on a named-field struct with zero public
fields the invocation does succeed (descriptor produced, zero-parameter
constructor), but the emitted `Self { ... }` body starts with a stray comma
(the literal separator of the `quote!` template), so it is not a
syntactically well-formed field list: the generated code cannot compile. -/
theorem c5_zero_public_fields_malformed_body :
    derive_impl_new inC5x = Except.ok
      { implGenerics := [], selfTy := "Hidden", tyGenerics := [], whereClause := none,
        newParams := [],
        bodyFieldToks := [Tok.comma, Tok.ident "secret", Tok.colon, Tok.defaultCallTok] } ∧
    bodyInitsOf (derive_impl_new inC5x) = none :=
  ⟨rfl, rfl⟩

/-- Counterexample to C6: the private field `y` of `inC6x` carries a
default-override annotation whose argument fails to parse, yet its
synthesized initializer is not the generic-default fallback but the argument
`7` of the later, parseable annotation. -/
theorem c6_counterexample :
    bodyInitsOf (derive_impl_new inC6x)
      = some [⟨"s", InitExpr.param⟩, ⟨"y", InitExpr.expr "7"⟩] ∧
    ¬ bodyInitsOf (derive_impl_new inC6x)
      = some [⟨"s", InitExpr.param⟩, ⟨"y", InitExpr.defaultCall⟩] := by
  decide

/-- Claim C6, amended: a non-public field carrying default-override
annotations all of whose arguments fail to parse as an expression falls back
to the generic-default invocation; the invocation still succeeds and no
diagnostic is produced. -/
theorem c6_amended_all_failing_defaults_degrade (nm : String) (gen : Generics)
    (fields : List Field) (f : Field)
    (hf : f ∈ fields) (hvis : f.vis.isPublic = false)
    (_hcarry : ∃ b ∈ f.attrs, b.path = "default")
    (hfail : ∀ b ∈ f.attrs, b.path = "default" → b.parsedArg = none) :
    isAccepted (derive_impl_new ⟨nm, gen, Data.structData (Fields.named fields)⟩) = true ∧
    extract_default_value f.attrs = none ∧
    [Tok.ident f.ident, Tok.colon, Tok.defaultCallTok]
      <:+: bodyToksOf (derive_impl_new ⟨nm, gen, Data.structData (Fields.named fields)⟩) := by
  have hex : extract_default_value f.attrs = none := extract_none_of_all_fail f.attrs hfail
  refine ⟨rfl, hex, ?_⟩
  have hinf := nonpub_init_infix nm gen fields f hf hvis
  rwa [show nonPubInitToks f = [Tok.ident f.ident, Tok.colon, Tok.defaultCallTok] from
    by simp [nonPubInitToks, hex]] at hinf

/-- Witness for C6 (amended): private field `q` carries a single `#[default]`
annotation with an unparseable argument; derivation is accepted and `q` is
initialized with `Default::default()`. -/
theorem c6_witness :
    isAccepted (derive_impl_new inC6w) = true ∧
    extract_default_value fieldC6.attrs = none ∧
    [Tok.ident "q", Tok.colon, Tok.defaultCallTok]
      <:+: bodyToksOf (derive_impl_new inC6w) :=
  c6_amended_all_failing_defaults_degrade "C6W" noGenerics fieldsC6 fieldC6
    (by decide) rfl (by decide) (by decide)

/-- Claim C7: an input declaration that is not a named-field struct (tuple
struct, unit struct, enumeration, or union) is rejected: the invocation ends
in the error state carrying the shape diagnostic, and no descriptor is
produced. -/
theorem c7_non_named_field_input_rejected (input : DeriveInput)
    (h : isNamedFieldStruct input.data = false) :
    derive_impl_new input = Except.error (shapeDiagnostic input.data) ∧
    isAccepted (derive_impl_new input) = false := by
  obtain ⟨nm, gen, dt⟩ := input
  cases dt with
  | structData fs =>
      cases fs with
      | named fields => simp [isNamedFieldStruct] at h
      | unnamed tys => exact ⟨rfl, rfl⟩
      | unit => exact ⟨rfl, rfl⟩
  | enumData => exact ⟨rfl, rfl⟩
  | unionData => exact ⟨rfl, rfl⟩

/-- Witness for C7: an enumeration input is rejected with the
only-structs diagnostic and yields no descriptor. -/
theorem c7_witness :
    derive_impl_new inC7w
      = Except.error "`ImplNew` macro can only be used on structs" ∧
    isAccepted (derive_impl_new inC7w) = false :=
  c7_non_named_field_input_rejected inC7w rfl

/-- Counterexample to C8: `inC8x` is an accepted named-field struct
declaration (two private fields, zero public ones), yet its constructor body
token sequence does not parse as a struct-expression field list at all —
so it is not an aggregate-initialization expression giving every field
exactly one initializer. -/
theorem c8_counterexample :
    isAccepted (derive_impl_new inC8x) = true ∧
    bodyInitsOf (derive_impl_new inC8x) = none := by
  decide

/-- Claim C8, amended: for every accepted named-field struct declaration
with at least one public field, the constructor body parses as a single
field-initializer list in which the public fields appear first, each bound
to the identically-named parameter, followed by one default-resolution
initializer per non-public field; the multiset of initialized names equals
the multiset of all field names (every field initialized exactly once). -/
theorem c8_amended_body_initializes_every_field_once (nm : String)
    (gen : Generics) (fields : List Field)
    (hpub : fields.filter (fun f => f.vis.isPublic) ≠ []) :
    bodyInitsOf (derive_impl_new ⟨nm, gen, Data.structData (Fields.named fields)⟩)
      = some ((fields.filter fun f => f.vis.isPublic).map
            (fun f => (⟨f.ident, InitExpr.param⟩ : FieldInit))
          ++ (fields.filter fun f => !f.vis.isPublic).map structInit) ∧
    (((fields.filter fun f => f.vis.isPublic).map
          (fun f => (⟨f.ident, InitExpr.param⟩ : FieldInit))
        ++ (fields.filter fun f => !f.vis.isPublic).map structInit).map
          FieldInit.name).Perm
      (fields.map Field.ident) := by
  constructor
  · have hpns : ((fields.filter fun f => f.vis.isPublic).map fun f => f.ident) ≠ [] := by
      simpa [List.map_eq_nil_iff] using hpub
    have hparse := parse_pub_prefix
      ((fields.filter fun f => f.vis.isPublic).map fun f => f.ident) hpns
      (sepByComma ((fields.filter fun f => !f.vis.isPublic).map nonPubInitToks))
      ((fields.filter fun f => !f.vis.isPublic).map structInit)
      (parse_sep_nonpub (fields.filter fun f => !f.vis.isPublic))
    have hbody : bodyInitsOf (derive_impl_new ⟨nm, gen, Data.structData (Fields.named fields)⟩)
        = parseInits
            (sepByComma (((fields.filter fun f => f.vis.isPublic).map fun f => f.ident).map
                fun n => [Tok.ident n])
              ++ Tok.comma
                :: sepByComma ((fields.filter fun f => !f.vis.isPublic).map nonPubInitToks)) :=
      rfl
    rw [hbody, hparse, List.map_map]
    rfl
  · have hperm := (List.filter_append_perm (fun f => f.vis.isPublic) fields).map Field.ident
    rw [List.map_append] at hperm
    simpa [List.map_map, Function.comp, structInit] using hperm

/-- Witness for C8 (amended): `pub a: u8` plus private `b` with
`#[default(3)]`; the body parses to `a` bound to the parameter and `b`
initialized from the annotation, and the initialized names are a
permutation of the field names. -/
theorem c8_witness :
    fieldsC8.filter (fun f => f.vis.isPublic) ≠ [] ∧
    (bodyInitsOf (derive_impl_new inC8w)
        = some ((fieldsC8.filter fun f => f.vis.isPublic).map
              (fun f => (⟨f.ident, InitExpr.param⟩ : FieldInit))
            ++ (fieldsC8.filter fun f => !f.vis.isPublic).map structInit) ∧
      (((fieldsC8.filter fun f => f.vis.isPublic).map
            (fun f => (⟨f.ident, InitExpr.param⟩ : FieldInit))
          ++ (fieldsC8.filter fun f => !f.vis.isPublic).map structInit).map
            FieldInit.name).Perm
        (fieldsC8.map Field.ident)) :=
  ⟨by decide,
    c8_amended_body_initializes_every_field_once "C8W" noGenerics fieldsC8 (by decide)⟩

/-- Claim C9: for an accepted generic struct declaration, the impl block's
generic-parameter clause is a verbatim copy of the declaration's generic
parameters with their bounds, the where-clause is copied verbatim, the
type-side generics are exactly those parameters' names, and the constructed
type is the declaration's own name. -/
theorem c9_generic_fidelity (nm : String) (gen : Generics) (fields : List Field)
    (_hgen : gen.params ≠ []) :
    implGenericsOf (derive_impl_new ⟨nm, gen, Data.structData (Fields.named fields)⟩)
      = gen.params ∧
    whereClauseOf (derive_impl_new ⟨nm, gen, Data.structData (Fields.named fields)⟩)
      = gen.whereClause ∧
    tyGenericsOf (derive_impl_new ⟨nm, gen, Data.structData (Fields.named fields)⟩)
      = gen.params.map (fun p => p.name) ∧
    selfTyOf (derive_impl_new ⟨nm, gen, Data.structData (Fields.named fields)⟩) = nm :=
  ⟨rfl, rfl, rfl, rfl⟩

/-- Witness for C9: generic struct `C9G<T: Clone> where T: Send` with
`pub value: T`; the impl block copies `T: Clone` and the where-clause, and
the type-side generics are `[T]`. -/
theorem c9_witness :
    implGenericsOf (derive_impl_new inC9w) = genC9.params ∧
    whereClauseOf (derive_impl_new inC9w) = genC9.whereClause ∧
    tyGenericsOf (derive_impl_new inC9w) = genC9.params.map (fun p => p.name) ∧
    selfTyOf (derive_impl_new inC9w) = "C9G" :=
  c9_generic_fidelity "C9G" genC9
    [⟨"value", "T", Visibility.publicVis, []⟩,
     ⟨"count", "usize", Visibility.inherited, []⟩]
    (by decide)

/-- Claim C10: a field with restricted visibility (`pub(crate)`,
`pub(super)`, `pub(self)`, ...) is classified as non-public: it is not in
the public partition feeding the parameter list, it is in the non-public
partition, its initializer comes from the default-resolution path (its
tokens appear in the body), and replacing every restricted visibility by the
private one leaves the derive output unchanged. -/
theorem c10_restricted_visibility_is_non_public (nm : String) (gen : Generics)
    (fields : List Field) (f : Field) (scope : String)
    (hf : f ∈ fields) (hvis : f.vis = Visibility.restricted scope) :
    f ∉ fields.filter (fun g => g.vis.isPublic) ∧
    f ∈ fields.filter (fun g => !g.vis.isPublic) ∧
    nonPubInitToks f
      <:+: bodyToksOf (derive_impl_new ⟨nm, gen, Data.structData (Fields.named fields)⟩) ∧
    derive_impl_new (demoteInput ⟨nm, gen, Data.structData (Fields.named fields)⟩)
      = derive_impl_new ⟨nm, gen, Data.structData (Fields.named fields)⟩ := by
  have hvb : f.vis.isPublic = false := by rw [hvis]; rfl
  refine ⟨?_, List.mem_filter.mpr ⟨hf, by simp [hvb]⟩,
    nonpub_init_infix nm gen fields f hf hvb, derive_demote _⟩
  intro hmem
  have := (List.mem_filter.mp hmem).2
  rw [hvb] at this
  cases this

/-- Witness for C10: `pub a: u8` plus `pub(crate) c: u32`; the `pub(crate)`
field lands in the non-public partition, gets a default-resolution
initializer in the body, and demoting it to private changes nothing. -/
theorem c10_witness :
    fieldC10 ∉ fieldsC10.filter (fun g => g.vis.isPublic) ∧
    fieldC10 ∈ fieldsC10.filter (fun g => !g.vis.isPublic) ∧
    nonPubInitToks fieldC10 <:+: bodyToksOf (derive_impl_new inC10w) ∧
    derive_impl_new (demoteInput inC10w) = derive_impl_new inC10w :=
  c10_restricted_visibility_is_non_public "C10S" noGenerics fieldsC10 fieldC10 "crate"
    (by decide) rfl

end ImplNew
